import Mathlib

/-!
Shallow embedding of the ACO-based sinkhole-detection core
(src/aco_algorithm.py and the parts of src/network.py it reads).

Modelling conventions:
- Python floats are modelled as exact rationals (ℚ); every numeric
  literal of the source (0.5, 0.38, 0.1, ...) appears as the
  corresponding rational.
- The numpy pheromone matrix is a function ℕ → ℕ → ℚ; numpy's
  elementwise operations become pointwise operations on the function.
- Randomness is passed in explicitly: start_choice k is the raw draw
  of random.randint for ant k (taken mod num_nodes, which is exactly
  the range randint(0, num_nodes-1) produces), and oracle t probs is
  the raw draw of the t-th np.random.choice call, which receives the
  normalized probability vector just as np.random.choice does; the
  chosen index is the draw mod the number of candidates.
- Python lists are Lean lists; the dict self.nodes is a function from
  node id to the node's fields.
-/

namespace WsnAco

/-- Pheromone matrix (numpy array of shape (num_nodes, num_nodes)),
modelled as a total function on ordered node pairs. -/
abbrev Ph := ℕ → ℕ → ℚ

/-- The part of WirelessSensorNetwork (src/network.py) that the ACO core
reads: number of nodes, per-node neighbor list, and the per-node fields
energy, packets_sent, packets_received, is_malicious.  The energy field
is optional because ant_movement guards it with hasattr.  sinkhole_nodes
is the ground-truth list, carried only so that networks differing in
ground truth can be compared. -/
structure Network where
  num_nodes : ℕ
  neighbors : ℕ → List ℕ
  energy : ℕ → Option ℚ
  packets_sent : ℕ → ℕ
  packets_received : ℕ → ℕ
  is_malicious : ℕ → Bool
  sinkhole_nodes : List ℕ

/-- The dict returned by WirelessSensorNetwork.get_node_behavior
(src/network.py lines 117-125).  The key 'delivery_ratio' is the field
`delivery`. -/
structure Behavior where
  delivery : ℚ
  packets_sent : ℕ
  packets_received : ℕ
  is_malicious : Bool

/-- get_node_behavior (src/network.py lines 117-125):
delivery_ratio = packets_received / max(packets_sent, 1). -/
def get_node_behavior (net : Network) (node_id : ℕ) : Behavior :=
  { delivery := (net.packets_received node_id : ℚ) / (max (net.packets_sent node_id) 1 : ℕ)
  , packets_sent := net.packets_sent node_id
  , packets_received := net.packets_received node_id
  , is_malicious := net.is_malicious node_id }

/-- Ant (src/aco_algorithm.py lines 21-33). -/
structure Ant where
  current_node : ℕ
  visited_nodes : List ℕ
  suspicious_nodes : List ℕ
deriving DecidableEq, Repr

/-- ACO parameter alpha = 1.0 (pheromone importance), used as the
exponent on the pheromone factor. -/
def alpha : ℕ := 1

/-- ACO parameter beta = 2.0 (heuristic importance), used as the
exponent on the heuristic factor. -/
def beta : ℕ := 2

/-- ACO parameter rho = 0.1 (evaporation rate). -/
def rho : ℚ := 1/10

/-- ACO parameter Q = 100 (pheromone deposit constant). -/
def Q : ℚ := 100

/-- The suspicion heuristic: the straight-line block of
ant_movement (src/aco_algorithm.py lines 66-81) that sums the four
weighted criteria.  delivery is the node's delivery ratio, energy is
the optional energy field (the hasattr guard becomes the Option
match), num_neighbors the length of the node's neighbor list. -/
def suspiciousness_score (delivery : ℚ) (packets_sent : ℕ) (energy : Option ℚ)
    (num_neighbors : ℕ) : ℚ :=
  (if delivery < 38/100 then 4/10 else 0)
  + (if 35 < packets_sent ∧ delivery < 28/100 then 3/10 else 0)
  + (match energy with
     | some e => if e < 40 then 2/10 else 0
     | none => 0)
  + (if 6 < num_neighbors then 1/10 else 0)

/-- The suspicion heuristic evaluated at a node of a network, exactly
as ant_movement evaluates it (behavior snapshot fields, the node's
energy, and its neighbor count). -/
def score_at (net : Network) (v : ℕ) : ℚ :=
  suspiciousness_score (get_node_behavior net v).delivery
    (get_node_behavior net v).packets_sent (net.energy v) (net.neighbors v).length

/-- Python l[-3:]: the sublist of the last (at most) three elements.
Only membership in it is ever tested, so it is kept in reversed order. -/
def last_three (l : List ℕ) : List ℕ := l.reverse.take 3

/-- The transition weight computed for one candidate next node
(src/aco_algorithm.py lines 93-103): pheromone^alpha * heuristic^beta
with heuristic = 1/(distance+0.1), distance = 1.0, doubled when the
candidate's delivery ratio is below 0.4. -/
def transition_weight (net : Network) (ph : Ph) (cur nxt : ℕ) : ℚ :=
  let pheromone := ph cur nxt
  let distance : ℚ := 1
  let base : ℚ := 1 / (distance + 1/10)
  let heuristic := if (get_node_behavior net nxt).delivery < 4/10 then base * 2 else base
  pheromone ^ alpha * heuristic ^ beta

/-- ant_movement (src/aco_algorithm.py lines 57-109).  Takes the
pheromone matrix (read-only during movement), the np.random.choice
oracle and its call counter t, and returns the updated ant together
with the updated counter. -/
def ant_movement (net : Network) (ph : Ph) (oracle : ℕ → List ℚ → ℕ) (t : ℕ)
    (ant : Ant) : Ant × ℕ :=
  let current_node := ant.current_node
  let visited := ant.visited_nodes ++ [current_node]
  let suspicious :=
    if score_at net current_node > 7/10 then ant.suspicious_nodes ++ [current_node]
    else ant.suspicious_nodes
  let available := (net.neighbors current_node).filter
    (fun n => decide (n ∉ last_three visited))
  let weights := available.map (transition_weight net ph current_node)
  if available ≠ [] ∧ 0 < weights.sum then
    let probs := weights.map (fun w => w / weights.sum)
    let idx := oracle t probs % available.length
    ({ current_node := available.getD idx current_node
     , visited_nodes := visited
     , suspicious_nodes := suspicious }, t + 1)
  else
    ({ current_node := current_node
     , visited_nodes := visited
     , suspicious_nodes := suspicious }, t)

/-- Pointwise increment of one matrix entry (+=). -/
def bump (ph : Ph) (a b : ℕ) (amt : ℚ) : Ph :=
  fun i j => if i = a ∧ j = b then ph i j + amt else ph i j

/-- The consecutive pairs (visited[i], visited[i+1]) of a trail. -/
def consecutive_pairs (l : List ℕ) : List (ℕ × ℕ) := l.zip l.tail

/-- The deposition performed for one ant inside update_pheromones
(src/aco_algorithm.py lines 116-129): ants with an empty suspicious
list deposit nothing; otherwise amount = Q * len(suspicious_nodes),
each trail edge into a suspicious node gets += amount, and every edge
from a suspicious node to each of its neighbors gets += amount * 0.5
(once per occurrence of the node in the suspicious list). -/
def deposit_for_ant (net : Network) (ant : Ant) (ph : Ph) : Ph :=
  if ant.suspicious_nodes = [] then ph
  else
    let amount : ℚ := Q * ant.suspicious_nodes.length
    let ph1 := (consecutive_pairs ant.visited_nodes).foldl
      (fun p uv => if uv.2 ∈ ant.suspicious_nodes then bump p uv.1 uv.2 amount else p) ph
    ant.suspicious_nodes.foldl
      (fun p s => (net.neighbors s).foldl (fun q n => bump q s n (amount * (1/2))) p) ph1

/-- update_pheromones (src/aco_algorithm.py lines 111-129): first every
entry is multiplied by (1 - rho), then each ant deposits. -/
def update_pheromones (net : Network) (ants : List Ant) (ph : Ph) : Ph :=
  ants.foldl (fun p a => deposit_for_ant net a p) (fun i j => ph i j * (1 - rho))

/-- The concatenation of all ants' suspicious lists
(src/aco_algorithm.py lines 135-137). -/
def all_suspicious (ants : List Ant) : List ℕ :=
  ants.foldl (fun acc a => acc ++ a.suspicious_nodes) []

/-- The keys of the Python vote_count dict, in insertion order
(first occurrence in all_suspicious). -/
def vote_keys (l : List ℕ) : List ℕ :=
  l.foldl (fun ks n => if n ∈ ks then ks else ks ++ [n]) []

/-- np.max over row i of the matrix (row length n).  The source only
evaluates it with n ≥ 1, where this equals the maximum entry. -/
def row_max (ph : Ph) (n : ℕ) (i : ℕ) : ℚ :=
  ((List.range n).map (fun j => ph i j)).foldl max (ph i 0)

/-- The behavior_score recomputed by detect_attacks from raw counters
(src/aco_algorithm.py lines 150-157). -/
def behavior_score (net : Network) (node_id : ℕ) : ℕ :=
  (if (get_node_behavior net node_id).delivery < 4/10 then 1 else 0)
  + (if 30 < (get_node_behavior net node_id).packets_sent then 1 else 0)
  + (if ((get_node_behavior net node_id).packets_received : ℚ)
        < ((get_node_behavior net node_id).packets_sent : ℚ) * (3/10) then 1 else 0)

/-- detect_attacks (src/aco_algorithm.py lines 131-164): votes are
counted over the concatenation of all suspicious lists; a voted node is
detected when votes ≥ max(2, len(ants) // 5), the maximum of its
pheromone row is ≥ 7.0, and its behavior_score is ≥ 2. -/
def detect_attacks (net : Network) (ants : List Ant) (ph : Ph) : List ℕ :=
  (vote_keys (all_suspicious ants)).filter (fun node_id =>
    decide (max 2 (ants.length / 5) ≤ (all_suspicious ants).count node_id
      ∧ (7 : ℚ) ≤ row_max ph net.num_nodes node_id
      ∧ 2 ≤ behavior_score net node_id))

/-- The mutable fields of an ACOAlgorithm instance
(src/aco_algorithm.py lines 38-49); the fixed parameters alpha, beta,
rho, Q are the global constants above. -/
structure ACOAlgorithm where
  num_ants : ℕ
  ants : List Ant
  pheromone_matrix : Ph
  detected_attacks : List ℕ

/-- ACOAlgorithm.__init__: empty ant list, pheromone matrix
np.ones((n,n)) * 0.5 (uniform 0.5), empty detected list. -/
def ACOAlgorithm.init (num_ants : ℕ) : ACOAlgorithm :=
  { num_ants := num_ants
  , ants := []
  , pheromone_matrix := fun _ _ => 1/2
  , detected_attacks := [] }

/-- create_ant_colony (src/aco_algorithm.py lines 51-55): num_ants
fresh ants, each at the random start node start_choice k mod num_nodes
(the range of random.randint(0, num_nodes-1)), with empty trails and
empty suspicious lists. -/
def create_ant_colony (net : Network) (start_choice : ℕ → ℕ) (num_ants : ℕ) : List Ant :=
  (List.range num_ants).map (fun k =>
    { current_node := start_choice k % net.num_nodes
    , visited_nodes := []
    , suspicious_nodes := [] })

/-- The state threaded through the iteration loop of run_aco: the ant
population, the pheromone matrix, and the RNG call counter. -/
structure RunState where
  ants : List Ant
  ph : Ph
  t : ℕ

/-- The inner `for ant in self.ants: self.ant_movement(ant)` loop of
run_aco: every ant moves once, all reading the same matrix ph (the
matrix is only written after all ants have moved). -/
def move_all (net : Network) (oracle : ℕ → List ℚ → ℕ) (ph : Ph)
    (ants : List Ant) (t : ℕ) : List Ant × ℕ :=
  ants.foldl (fun acc a =>
    (acc.1 ++ [(ant_movement net ph oracle acc.2 a).1],
     (ant_movement net ph oracle acc.2 a).2)) ([], t)

/-- One iteration of the run_aco loop (src/aco_algorithm.py lines
173-177): move every ant once, then update the pheromones once. -/
def run_iteration (net : Network) (oracle : ℕ → List ℚ → ℕ) (s : RunState) : RunState :=
  { ants := (move_all net oracle s.ph s.ants s.t).1
  , ph := update_pheromones net (move_all net oracle s.ph s.ants s.t).1 s.ph
  , t := (move_all net oracle s.ph s.ants s.t).2 }

/-- The fixed-count iteration loop of run_aco. -/
def aco_loop (net : Network) (oracle : ℕ → List ℚ → ℕ) : ℕ → RunState → RunState
  | 0, s => s
  | k + 1, s => aco_loop net oracle k (run_iteration net oracle s)

/-- run_aco (src/aco_algorithm.py lines 166-186): create a fresh
colony, run the loop for the configured number of iterations starting
from the instance's current pheromone matrix, call detect_attacks
once, and return the detected list together with the updated instance
(the pheromone matrix is carried on the instance; nothing resets it to
its initial value except constructing a new instance). -/
def run_aco (a : ACOAlgorithm) (net : Network) (start_choice : ℕ → ℕ)
    (oracle : ℕ → List ℚ → ℕ) (iterations : ℕ) : List ℕ × ACOAlgorithm :=
  let s0 : RunState :=
    { ants := create_ant_colony net start_choice a.num_ants
    , ph := a.pheromone_matrix
    , t := 0 }
  let sf := aco_loop net oracle iterations s0
  let detected := detect_attacks net sf.ants sf.ph
  (detected,
   { num_ants := a.num_ants
   , ants := sf.ants
   , pheromone_matrix := sf.ph
   , detected_attacks := detected })

/-! Concrete networks used to instantiate the theorems.  They are
states the Graph Provider (src/network.py) can be in: node ids below
num_nodes, symmetric neighbor lists without self-loops, and per-node
counters; demo_net mirrors an injected sinkhole node (high traffic,
nothing delivered, low energy, src/network.py lines 82-86). -/

/-- A one-node network whose single node behaves like an injected
sinkhole: packets_sent = 40, packets_received = 0 (delivery ratio 0),
energy 20, no neighbors. -/
def demo_net : Network :=
  { num_nodes := 1
  , neighbors := fun _ => []
  , energy := fun _ => some 20
  , packets_sent := fun _ => 40
  , packets_received := fun _ => 0
  , is_malicious := fun _ => true
  , sinkhole_nodes := [0] }

/-- demo_net with the ground-truth fields cleared: identical topology,
counters and energy, but no node marked malicious. -/
def demo_net_clean : Network :=
  { num_nodes := 1
  , neighbors := fun _ => []
  , energy := fun _ => some 20
  , packets_sent := fun _ => 40
  , packets_received := fun _ => 0
  , is_malicious := fun _ => false
  , sinkhole_nodes := [] }

/-- A one-node network whose node received 5 packets but sent none. -/
def zero_sent_net : Network :=
  { num_nodes := 1
  , neighbors := fun _ => []
  , energy := fun _ => some 100
  , packets_sent := fun _ => 0
  , packets_received := fun _ => 5
  , is_malicious := fun _ => false
  , sinkhole_nodes := [] }

/-- A two-node network, the two nodes being mutual neighbors, with
healthy traffic counters. -/
def pair_net : Network :=
  { num_nodes := 2
  , neighbors := fun i => if i = 0 then [1] else [0]
  , energy := fun _ => some 90
  , packets_sent := fun _ => 10
  , packets_received := fun _ => 9
  , is_malicious := fun _ => false
  , sinkhole_nodes := [] }

/-! ### Helper lemmas about one movement step -/

/-- One movement step appends the current node to the trail, in both
the move and the stay branch. -/
theorem ant_movement_visited_eq (net : Network) (ph : Ph) (oracle : ℕ → List ℚ → ℕ)
    (t : ℕ) (a : Ant) :
    (ant_movement net ph oracle t a).1.visited_nodes
      = a.visited_nodes ++ [a.current_node] := by
  simp only [ant_movement]
  split <;> rfl

/-- One movement step appends the current node to the suspicious list
exactly when its suspicion score exceeds 0.7, in both branches. -/
theorem ant_movement_suspicious_eq (net : Network) (ph : Ph) (oracle : ℕ → List ℚ → ℕ)
    (t : ℕ) (a : Ant) :
    (ant_movement net ph oracle t a).1.suspicious_nodes
      = if score_at net a.current_node > 7/10 then a.suspicious_nodes ++ [a.current_node]
        else a.suspicious_nodes := by
  simp only [ant_movement]
  split <;> rfl

/-- List.getD stays inside the list when the index is in range. -/
theorem getD_mem_of_lt {l : List ℕ} {n : ℕ} (d : ℕ) (h : n < l.length) :
    l.getD n d ∈ l := by
  rw [List.getD_eq_getElem?_getD, List.getElem?_eq_getElem h]
  exact List.getElem_mem h

/-- After one movement step the new current node is the old one (stay)
or one of its neighbors (move): the candidate set is a sublist of the
neighbor list. -/
theorem ant_movement_current_spec (net : Network) (ph : Ph) (oracle : ℕ → List ℚ → ℕ)
    (t : ℕ) (a : Ant) :
    (ant_movement net ph oracle t a).1.current_node = a.current_node
      ∨ (ant_movement net ph oracle t a).1.current_node ∈ net.neighbors a.current_node := by
  simp only [ant_movement]
  split
  · next hcond =>
    right
    dsimp only
    exact List.mem_of_mem_filter
      (getD_mem_of_lt a.current_node (Nat.mod_lt _ (List.length_pos.mpr hcond.1)))
  · left; rfl

/-! ### Helper lemmas about the colony-level folds -/

/-- Origin of the ants produced by move_all: every ant in the output
is the image of an input ant under one movement step (with some value
of the RNG call counter). -/
theorem move_all_mem_aux (net : Network) (oracle : ℕ → List ℚ → ℕ) (ph : Ph)
    (l : List Ant) (acc : List Ant × ℕ) (x : Ant)
    (hx : x ∈ (l.foldl (fun acc a =>
      (acc.1 ++ [(ant_movement net ph oracle acc.2 a).1],
       (ant_movement net ph oracle acc.2 a).2)) acc).1) :
    x ∈ acc.1 ∨ ∃ a ∈ l, ∃ u, x = (ant_movement net ph oracle u a).1 := by
  induction l generalizing acc with
  | nil => exact Or.inl hx
  | cons hd tl ih =>
    rcases ih _ hx with h | ⟨a, ha, u, hu⟩
    · rcases List.mem_append.mp h with h | h
      · exact Or.inl h
      · exact Or.inr ⟨hd, List.mem_cons_self hd tl,
          acc.2, (List.mem_singleton.mp h)⟩
    · exact Or.inr ⟨a, List.mem_cons_of_mem hd ha, u, hu⟩

/-- Origin of the ants produced by move_all. -/
theorem move_all_mem (net : Network) (oracle : ℕ → List ℚ → ℕ) (ph : Ph)
    (ants : List Ant) (t : ℕ) (x : Ant)
    (hx : x ∈ (move_all net oracle ph ants t).1) :
    ∃ a ∈ ants, ∃ u, x = (ant_movement net ph oracle u a).1 := by
  rcases move_all_mem_aux net oracle ph ants ([], t) x hx with h | h
  · cases h
  · exact h

/-- Any per-ant property preserved by ant_movement holds for all ants
of the state after any number of loop iterations, provided it holds
initially. -/
theorem aco_loop_ants_pred (net : Network) (oracle : ℕ → List ℚ → ℕ)
    (P : Ant → Prop)
    (hpres : ∀ (ph : Ph) (u : ℕ) (a : Ant), P a → P (ant_movement net ph oracle u a).1) :
    ∀ (k : ℕ) (s : RunState), (∀ a ∈ s.ants, P a) →
      ∀ a ∈ (aco_loop net oracle k s).ants, P a := by
  intro k
  induction k with
  | zero => intro s hs; exact hs
  | succ k ih =>
    intro s hs
    refine ih (run_iteration net oracle s) ?_
    intro x hx
    obtain ⟨a, ha, u, hu⟩ := move_all_mem net oracle s.ph s.ants s.t x hx
    exact hu ▸ hpres s.ph u a (hs a ha)

/-- all_suspicious is the join of the per-ant suspicious lists. -/
theorem all_suspicious_aux (l : List Ant) (acc : List ℕ) :
    l.foldl (fun acc a => acc ++ a.suspicious_nodes) acc
      = acc ++ (l.map Ant.suspicious_nodes).flatten := by
  induction l generalizing acc with
  | nil => simp
  | cons hd tl ih =>
    simp only [List.foldl_cons, List.map_cons, List.flatten_cons, ih, List.append_assoc]

/-- Membership in the concatenated suspicion votes. -/
theorem mem_all_suspicious (ants : List Ant) (x : ℕ) :
    x ∈ all_suspicious ants ↔ ∃ a ∈ ants, x ∈ a.suspicious_nodes := by
  unfold all_suspicious
  rw [all_suspicious_aux, List.nil_append, List.mem_flatten]
  constructor
  · rintro ⟨s, hs, hx⟩
    obtain ⟨a, ha, rfl⟩ := List.mem_map.mp hs
    exact ⟨a, ha, hx⟩
  · rintro ⟨a, ha, hx⟩
    exact ⟨a.suspicious_nodes, List.mem_map.mpr ⟨a, ha, rfl⟩, hx⟩

/-- Membership in the vote_count keys equals membership in the vote
list. -/
theorem mem_vote_keys_aux (l : List ℕ) (acc : List ℕ) (x : ℕ) :
    x ∈ l.foldl (fun ks n => if n ∈ ks then ks else ks ++ [n]) acc
      ↔ x ∈ acc ∨ x ∈ l := by
  induction l generalizing acc with
  | nil => simp
  | cons hd tl ih =>
    simp only [List.foldl_cons, ih, List.mem_cons]
    split
    · next h =>
      constructor
      · rintro (h' | h') <;> tauto
      · rintro (h' | rfl | h') <;> tauto
    · simp only [List.mem_append, List.mem_singleton]
      tauto

/-- Membership in vote_keys. -/
theorem mem_vote_keys (l : List ℕ) (x : ℕ) : x ∈ vote_keys l ↔ x ∈ l := by
  unfold vote_keys
  rw [mem_vote_keys_aux]
  simp

/-- Every detected node carries at least one suspicion vote. -/
theorem detect_attacks_subset (net : Network) (ants : List Ant) (ph : Ph)
    (d : ℕ) (hd : d ∈ detect_attacks net ants ph) :
    d ∈ all_suspicious ants := by
  unfold detect_attacks at hd
  exact (mem_vote_keys _ _).mp (List.mem_of_mem_filter hd)

/-! ### C1 -/

/-- C1 counterexample: the claim says a single-ant colony can never
reach consensus, so every run_aco with one ant returns an empty
Detected-Attack Set.  On demo_net (one sinkhole-behaved node), one ant
and two iterations, run_aco returns a non-empty detected list: the
single ant flags the node once per iteration, so the node collects two
votes from one agent. -/
theorem C1_counterexample :
    (run_aco (ACOAlgorithm.init 1) demo_net (fun _ => 0) (fun _ _ => 0) 2).1 ≠ [] := by
  with_unfolding_all decide

/-- C1 amended: with numAgents = 1 the vote threshold is still
max(2, 1 // 5) = 2, but the vote tally counts flag events rather than
distinct agents (detect_attacks concatenates the raw per-ant
suspicious lists, and ant_movement appends the current node once per
visit that scores above 0.7), so one agent flagging a node in two
iterations reaches the threshold and the Detected-Attack Set of a
single-ant run can be non-empty: on demo_net with two iterations the
lone agent casts 2 votes for node 0 and run_aco returns [0]. -/
theorem C1_amended :
    (∀ a : Ant, max 2 (([a] : List Ant).length / 5) = 2)
    ∧ (all_suspicious
        (run_aco (ACOAlgorithm.init 1) demo_net (fun _ => 0) (fun _ _ => 0) 2).2.ants).count 0 = 2
    ∧ (run_aco (ACOAlgorithm.init 1) demo_net (fun _ => 0) (fun _ _ => 0) 2).1 = [0] := by
  refine ⟨fun a => by norm_num, ?_, ?_⟩ <;> with_unfolding_all decide

/-! ### C3 -/

/-- C3 counterexample: the claim says that with packetsSent = 0 the
delivery ratio is 0 for every value of packetsReceived.  On a node
with packetsSent = 0 and packetsReceived = 5, get_node_behavior
returns delivery ratio 5, not 0. -/
theorem C3_counterexample :
    (get_node_behavior zero_sent_net 0).delivery = 5
    ∧ (get_node_behavior zero_sent_net 0).delivery ≠ 0 := by
  refine ⟨?_, ?_⟩ <;> with_unfolding_all decide

/-- C3 amended: for packetsSent = 0 the division is guarded by
treating the denominator as max(packetsSent, 1) = 1, so no exception
is possible and the delivery ratio equals packetsReceived (which is 0
exactly when packetsReceived = 0), rather than being 0 for every value
of packetsReceived. -/
theorem C3_amended (net : Network) (node_id : ℕ) (h : net.packets_sent node_id = 0) :
    (get_node_behavior net node_id).delivery = (net.packets_received node_id : ℚ) := by
  unfold get_node_behavior
  dsimp only
  rw [h]
  norm_num

/-- C3 witness: the amended statement at the concrete zero-sent node. -/
theorem C3_witness :
    (get_node_behavior zero_sent_net 0).delivery
      = ((zero_sent_net.packets_received 0 : ℕ) : ℚ) :=
  C3_amended zero_sent_net 0 rfl

/-! ### C4 -/

/-- C4 counterexample: the claim says a node with deliveryRatio = 0.95
and packetsSent = 10 gets heuristic score 0 regardless of energy and
neighbor count.  With energy 20 and 7 neighbors the score is 0.3
(the +0.2 energy term and +0.1 connectivity term both fire), not 0. -/
theorem C4_counterexample :
    suspiciousness_score (95/100) 10 (some 20) 7 = 3/10
    ∧ suspiciousness_score (95/100) 10 (some 20) 7 ≠ 0 := by
  refine ⟨?_, ?_⟩ <;> with_unfolding_all decide

/-- C4 amended: a node with deliveryRatio = 0.95 and packetsSent = 10
can score up to 0.3 (energy and connectivity terms), not necessarily
0; but the score never exceeds the 0.7 flagging threshold, and any
node whose score does not exceed 0.7 never appears in any agent's
suspicious list in any run of run_aco. -/
theorem C4_amended :
    (∀ (energy : Option ℚ) (k : ℕ), suspiciousness_score (95/100) 10 energy k ≤ 3/10)
    ∧ ∀ (A : ACOAlgorithm) (net : Network) (sc : ℕ → ℕ) (oracle : ℕ → List ℚ → ℕ)
        (iters : ℕ) (v : ℕ), ¬ score_at net v > 7/10 →
        v ∉ all_suspicious (run_aco A net sc oracle iters).2.ants := by
  constructor
  · intro e k
    unfold suspiciousness_score
    rw [if_neg (by norm_num), if_neg (by rintro ⟨-, h⟩; norm_num at h)]
    have h1 : (0:ℚ) + 0 ≤ 0 + 0 := le_refl _
    have h2 : (match e with
        | some x => if x < 40 then (2:ℚ)/10 else 0
        | none => 0) ≤ 2/10 := by
      rcases e with _ | x
      · norm_num
      · dsimp only; split <;> norm_num
    have h3 : (if 6 < k then (1:ℚ)/10 else 0) ≤ 1/10 := by split <;> norm_num
    linarith
  · intro A net sc oracle iters v hv hmem
    rw [mem_all_suspicious] at hmem
    obtain ⟨a, ha, hva⟩ := hmem
    have hfin : a ∈ (aco_loop net oracle iters
        { ants := create_ant_colony net sc A.num_ants
        , ph := A.pheromone_matrix, t := 0 }).ants := ha
    refine aco_loop_ants_pred net oracle (fun x => v ∉ x.suspicious_nodes) ?_ iters _ ?_ a hfin hva
    · intro ph u x hx
      rw [ant_movement_suspicious_eq]
      split
      · next hsc =>
        intro hmem'
        rcases List.mem_append.mp hmem' with h | h
        · exact hx h
        · rw [List.mem_singleton] at h
          subst h
          exact hv hsc
      · exact hx
    · intro x hx
      unfold create_ant_colony at hx
      obtain ⟨k, -, rfl⟩ := List.mem_map.mp hx
      exact List.not_mem_nil v

/-- C4 witness: instantiating the run-level part on pair_net (whose
node 1 scores 0, below the threshold) shows node 1 is absent from
every suspicion list of a concrete run. -/
theorem C4_witness :
    ¬ score_at pair_net 1 > 7/10
    ∧ 1 ∉ all_suspicious
        (run_aco (ACOAlgorithm.init 1) pair_net (fun _ => 0) (fun _ _ => 0) 2).2.ants := by
  have h : ¬ score_at pair_net 1 > 7/10 := by with_unfolding_all decide
  exact ⟨h, C4_amended.2 (ACOAlgorithm.init 1) pair_net (fun _ => 0) (fun _ _ => 0) 2 1 h⟩

/-! ### C5 -/

/-- C5: a node with delivery ratio 0.0 and packetsSent > 35 always
scores at least 0.7: the +0.4 low-delivery term and the +0.3
high-traffic term both fire, whatever the energy field and neighbor
count are, independently of any randomness or colony size (the
heuristic is a pure function). -/
theorem C5_low_delivery_high_traffic (packets_sent : ℕ) (energy : Option ℚ) (k : ℕ)
    (h : 35 < packets_sent) :
    7/10 ≤ suspiciousness_score 0 packets_sent energy k := by
  unfold suspiciousness_score
  rw [if_pos (by norm_num), if_pos ⟨h, by norm_num⟩]
  have h1 : (0:ℚ) ≤ (match energy with
      | some x => if x < 40 then (2:ℚ)/10 else 0
      | none => 0) := by
    rcases energy with _ | x
    · norm_num
    · dsimp only; split <;> norm_num
  have h2 : (0:ℚ) ≤ if 6 < k then (1:ℚ)/10 else 0 := by split <;> norm_num
  linarith

/-- C5 witness: the concrete instance packetsSent = 36, no energy
field, no neighbors. -/
theorem C5_witness : 7/10 ≤ suspiciousness_score 0 36 none 0 :=
  C5_low_delivery_high_traffic 36 none 0 (by norm_num)

/-! ### Helper lemmas about the pheromone update -/

/-- A bump by a non-negative amount never decreases an entry. -/
theorem bump_le (p : Ph) (a b : ℕ) (amt : ℚ) (h : 0 ≤ amt) (i j : ℕ) :
    p i j ≤ bump p a b amt i j := by
  unfold bump
  split
  · linarith
  · exact le_refl _

/-- Folding entry-increasing steps never decreases an entry. -/
theorem foldl_pointwise_le {α : Type} (g : Ph → α → Ph)
    (hg : ∀ (p : Ph) (x : α) (i j : ℕ), p i j ≤ g p x i j) :
    ∀ (l : List α) (p : Ph) (i j : ℕ), p i j ≤ (l.foldl g p) i j := by
  intro l
  induction l with
  | nil => intro p i j; exact le_refl _
  | cons hd tl ih =>
    intro p i j
    exact le_trans (hg p hd i j) (ih (g p hd) i j)

/-- The deposition phase only adds pheromone: no entry decreases. -/
theorem le_deposit_for_ant (net : Network) (a : Ant) (p : Ph) (i j : ℕ) :
    p i j ≤ deposit_for_ant net a p i j := by
  unfold deposit_for_ant
  split
  · exact le_refl _
  · have hamt : (0:ℚ) ≤ Q * a.suspicious_nodes.length := by
      unfold Q; positivity
    refine le_trans
      (foldl_pointwise_le _ ?_ (consecutive_pairs a.visited_nodes) p i j)
      (foldl_pointwise_le _ ?_ a.suspicious_nodes _ i j)
    · intro p' uv i' j'
      split
      · exact bump_le p' uv.1 uv.2 _ hamt i' j'
      · exact le_refl _
    · intro p' s i' j'
      refine foldl_pointwise_le _ ?_ (net.neighbors s) p' i' j'
      intro q n i'' j''
      exact bump_le q s n _ (by positivity) i'' j''

/-- With no ant holding a non-empty suspicious list, the deposition
phase is the identity and update_pheromones is pure evaporation. -/
theorem update_pheromones_no_deposit (net : Network) (ants : List Ant) (ph : Ph)
    (h : ∀ a ∈ ants, a.suspicious_nodes = []) (i j : ℕ) :
    update_pheromones net ants ph i j = ph i j * (1 - rho) := by
  unfold update_pheromones
  have key : ∀ (l : List Ant) (p : Ph), (∀ a ∈ l, a.suspicious_nodes = []) →
      l.foldl (fun p a => deposit_for_ant net a p) p = p := by
    intro l
    induction l with
    | nil => intro p _; rfl
    | cons hd tl ih =>
      intro p hp
      rw [List.foldl_cons]
      have hd_eq : deposit_for_ant net hd p = p := by
        unfold deposit_for_ant
        rw [if_pos (hp hd (List.mem_cons_self hd tl))]
      rw [hd_eq]
      exact ih p (fun a ha => hp a (List.mem_cons_of_mem hd ha))
  rw [key ants _ h]

/-! ### C6 -/

/-- C6: every pheromone entry starts at the uniform 0.5; one
update_pheromones call keeps all entries non-negative; when no ant has
a non-empty suspicious list the call is exactly multiplication of
every entry by (1 - rho) with rho = 0.1, which on a non-negative entry
is non-increasing and stays non-negative, so repeated evaporation
without reinforcement decays monotonically toward zero and never makes
an entry negative or larger. -/
theorem C6_pheromone_invariants :
    (∀ (na i j : ℕ), (ACOAlgorithm.init na).pheromone_matrix i j = 1/2)
    ∧ (∀ (net : Network) (ants : List Ant) (ph : Ph),
        (∀ p q : ℕ, 0 ≤ ph p q) → ∀ i j : ℕ, 0 ≤ update_pheromones net ants ph i j)
    ∧ (∀ (net : Network) (ants : List Ant) (ph : Ph),
        (∀ a ∈ ants, a.suspicious_nodes = []) →
        ∀ i j : ℕ, update_pheromones net ants ph i j = ph i j * (1 - rho))
    ∧ (∀ (net : Network) (ants : List Ant) (ph : Ph) (i j : ℕ),
        (∀ a ∈ ants, a.suspicious_nodes = []) → 0 ≤ ph i j →
        0 ≤ update_pheromones net ants ph i j
          ∧ update_pheromones net ants ph i j ≤ ph i j)
    ∧ (∀ (net : Network) (ants : List Ant) (ph : Ph) (n i j : ℕ),
        (∀ a ∈ ants, a.suspicious_nodes = []) →
        (update_pheromones net ants)^[n] ph i j = ph i j * (1 - rho) ^ n) := by
  refine ⟨fun na i j => rfl, ?_, update_pheromones_no_deposit, ?_, ?_⟩
  · intro net ants ph h i j
    have h0 : (0:ℚ) ≤ ph i j * (1 - rho) := by
      have := h i j
      unfold rho
      linarith
    calc (0:ℚ) ≤ ph i j * (1 - rho) := h0
      _ ≤ update_pheromones net ants ph i j := by
          unfold update_pheromones
          exact foldl_pointwise_le _
            (fun p a i' j' => le_deposit_for_ant net a p i' j') ants _ i j
  · intro net ants ph i j hempty hnn
    rw [update_pheromones_no_deposit net ants ph hempty i j]
    unfold rho
    constructor <;> linarith
  · intro net ants ph n i j hempty
    induction n generalizing ph with
    | zero => simp
    | succ n ih =>
      rw [Function.iterate_succ_apply, ih (update_pheromones net ants ph),
        update_pheromones_no_deposit net ants ph hempty i j, pow_succ]
      ring

/-- C6 witness: the update on an empty colony, at the initial entry
value 0.5. -/
theorem C6_witness :
    0 ≤ update_pheromones demo_net [] (fun _ _ => 1/2) 0 0
    ∧ update_pheromones demo_net [] (fun _ _ => 1/2) 0 0 ≤ (1:ℚ)/2 :=
  C6_pheromone_invariants.2.2.2.1 demo_net [] (fun _ _ => 1/2) 0 0
    (fun a ha => absurd ha (List.not_mem_nil a)) (by norm_num)

/-! ### C7 -/

/-- C7: when every neighbor of the ant's current node lies in the last
three entries of its (just extended) visited trail, the candidate set
is empty and ant_movement leaves the current node unchanged; the
function is total, so staying put is a no-op and not a fault. -/
theorem C7_empty_candidates_stay (net : Network) (ph : Ph) (oracle : ℕ → List ℚ → ℕ)
    (t : ℕ) (a : Ant)
    (h : ∀ n ∈ net.neighbors a.current_node,
      n ∈ last_three (a.visited_nodes ++ [a.current_node])) :
    (ant_movement net ph oracle t a).1.current_node = a.current_node := by
  have hav : (net.neighbors a.current_node).filter
      (fun n => decide (n ∉ last_three (a.visited_nodes ++ [a.current_node]))) = [] := by
    rw [List.filter_eq_nil_iff]
    intro n hn
    simp only [decide_eq_true_eq, Decidable.not_not]
    exact h n hn
  simp only [ant_movement]
  rw [hav]
  simp

/-- C7 witness: in pair_net, an ant at node 1 whose trail already
holds node 0 has no eligible neighbor and stays at node 1. -/
theorem C7_witness :
    (ant_movement pair_net (fun _ _ => 1/2) (fun _ _ => 0) 0
      { current_node := 1, visited_nodes := [0], suspicious_nodes := [] }).1.current_node = 1 :=
  C7_empty_candidates_stay pair_net (fun _ _ => 1/2) (fun _ _ => 0) 0
    { current_node := 1, visited_nodes := [0], suspicious_nodes := [] }
    (by with_unfolding_all decide)

/-! ### C2 -/

/-- C2 counterexample: the claim says a second run_aco call on the
same ACOAlgorithm instance starts from the same initial algorithm
state (pheromone matrix back at the uniform 0.5), so results cannot
depend on earlier invocations.  On demo_net with two ants, a first
call with 2 iterations leaves entry (0,0) of the matrix far above 0.5,
and a subsequent 1-iteration call detects node 0 while a 1-iteration
call on a fresh instance detects nothing. -/
theorem C2_counterexample :
    (run_aco (ACOAlgorithm.init 2) demo_net (fun _ => 0) (fun _ _ => 0) 2).2.pheromone_matrix 0 0
      ≠ 1/2
    ∧ (run_aco (run_aco (ACOAlgorithm.init 2) demo_net (fun _ => 0) (fun _ _ => 0) 2).2
        demo_net (fun _ => 0) (fun _ _ => 0) 1).1
      ≠ (run_aco (ACOAlgorithm.init 2) demo_net (fun _ => 0) (fun _ _ => 0) 1).1 := by
  refine ⟨?_, ?_⟩ <;> with_unfolding_all decide

/-- C2 amended: agents and the detected list are rebuilt from scratch
on every call — the result of run_aco depends only on the instance's
num_ants and pheromone_matrix fields, never on its ants or
detected_attacks fields — but the pheromone matrix itself persists on
the instance across calls (only constructing a new instance restores
the uniform 0.5 matrix), so a second invocation can differ from a run
on a fresh instance. -/
theorem C2_amended (a b : ACOAlgorithm) (net : Network) (sc : ℕ → ℕ)
    (oracle : ℕ → List ℚ → ℕ) (k : ℕ)
    (h1 : a.num_ants = b.num_ants) (h2 : a.pheromone_matrix = b.pheromone_matrix) :
    run_aco a net sc oracle k = run_aco b net sc oracle k := by
  unfold run_aco
  rw [h1, h2]

/-- C2 witness: two instances agreeing on num_ants and matrix but with
different ants and detected_attacks fields produce identical runs. -/
theorem C2_witness :
    run_aco
        { num_ants := 1, ants := [], pheromone_matrix := fun _ _ => 1/2
        , detected_attacks := [] }
        demo_net (fun _ => 0) (fun _ _ => 0) 1
      = run_aco
        { num_ants := 1
        , ants := [{ current_node := 0, visited_nodes := [0], suspicious_nodes := [0] }]
        , pheromone_matrix := fun _ _ => 1/2
        , detected_attacks := [0] }
        demo_net (fun _ => 0) (fun _ _ => 0) 1 :=
  C2_amended _ _ demo_net (fun _ => 0) (fun _ _ => 0) 1 rfl rfl

/-! ### C8 -/

/-- C8: on a well-formed network (every neighbor of an in-range node
is in range) with at least one node, every node id in the
Detected-Attack Set returned by run_aco is in [0, num_nodes): start
nodes are in range, movement goes to neighbors of in-range nodes,
suspicion votes only name visited nodes, and detection only returns
voted nodes. -/
theorem C8_detected_in_range (A : ACOAlgorithm) (net : Network) (sc : ℕ → ℕ)
    (oracle : ℕ → List ℚ → ℕ) (k : ℕ)
    (hwf : ∀ i < net.num_nodes, ∀ j ∈ net.neighbors i, j < net.num_nodes)
    (hpos : 0 < net.num_nodes) :
    ∀ d ∈ (run_aco A net sc oracle k).1, d < net.num_nodes := by
  intro d hd
  have hsub : d ∈ all_suspicious (aco_loop net oracle k
      { ants := create_ant_colony net sc A.num_ants
      , ph := A.pheromone_matrix, t := 0 }).ants :=
    detect_attacks_subset net _ _ d hd
  rw [mem_all_suspicious] at hsub
  obtain ⟨x, hx, hdx⟩ := hsub
  have hP := aco_loop_ants_pred net oracle
    (fun a => a.current_node < net.num_nodes
      ∧ ∀ y ∈ a.suspicious_nodes, y < net.num_nodes) ?_ k _ ?_ x hx
  · exact hP.2 d hdx
  · intro ph u a ha
    constructor
    · rcases ant_movement_current_spec net ph oracle u a with hc | hc
      · rw [hc]; exact ha.1
      · exact hwf a.current_node ha.1 _ hc
    · intro y hy
      rw [ant_movement_suspicious_eq] at hy
      split at hy
      · rcases List.mem_append.mp hy with h | h
        · exact ha.2 y h
        · rw [List.mem_singleton] at h
          subst h
          exact ha.1
      · exact ha.2 y hy
  · intro a ha
    unfold create_ant_colony at ha
    obtain ⟨m, -, rfl⟩ := List.mem_map.mp ha
    exact ⟨Nat.mod_lt _ hpos, fun y hy => absurd hy (List.not_mem_nil y)⟩

/-- C8 witness: the detected node of the demo_net run lies below
num_nodes. -/
theorem C8_witness : (0:ℕ) < demo_net.num_nodes :=
  C8_detected_in_range (ACOAlgorithm.init 1) demo_net (fun _ => 0) (fun _ _ => 0) 2
    (by decide) (by decide) 0 (by with_unfolding_all decide)

/-! ### C9 -/

/-- C9: the detection pipeline never reads the ground-truth fields.
Two networks agreeing on node count, neighbor lists, energy and
traffic counters, and differing only in is_malicious and
sinkhole_nodes, give identical Detected-Attack Sets under the same
random draws. -/
theorem C9_ground_truth_never_read (A : ACOAlgorithm) (sc : ℕ → ℕ)
    (oracle : ℕ → List ℚ → ℕ) (k : ℕ) (n1 n2 : Network)
    (h1 : n1.num_nodes = n2.num_nodes) (h2 : n1.neighbors = n2.neighbors)
    (h3 : n1.energy = n2.energy) (h4 : n1.packets_sent = n2.packets_sent)
    (h5 : n1.packets_received = n2.packets_received) :
    (run_aco A n1 sc oracle k).1 = (run_aco A n2 sc oracle k).1 := by
  obtain ⟨nn1, nb1, e1, s1, r1, m1, sk1⟩ := n1
  obtain ⟨nn1, nb1, e1, s1, r1, m2, sk2⟩ := n2
  dsimp only at h1 h2 h3 h4 h5
  subst h1 h2 h3 h4 h5
  have hloop : ∀ (i : ℕ) (st : RunState),
      aco_loop ⟨nn1, nb1, e1, s1, r1, m1, sk1⟩ oracle i st
        = aco_loop ⟨nn1, nb1, e1, s1, r1, m2, sk2⟩ oracle i st := by
    intro i
    induction i with
    | zero => intro st; rfl
    | succ i ih =>
      intro st
      simp only [aco_loop]
      rw [show run_iteration ⟨nn1, nb1, e1, s1, r1, m1, sk1⟩ oracle st
            = run_iteration ⟨nn1, nb1, e1, s1, r1, m2, sk2⟩ oracle st from rfl]
      exact ih _
  simp only [run_aco]
  rw [show create_ant_colony ⟨nn1, nb1, e1, s1, r1, m1, sk1⟩ sc A.num_ants
        = create_ant_colony ⟨nn1, nb1, e1, s1, r1, m2, sk2⟩ sc A.num_ants from rfl]
  rw [hloop]
  rw [show detect_attacks (⟨nn1, nb1, e1, s1, r1, m1, sk1⟩ : Network)
        = detect_attacks ⟨nn1, nb1, e1, s1, r1, m2, sk2⟩ from rfl]

/-- C9 witness: demo_net and demo_net_clean differ exactly in the
ground-truth fields and give the same detected list. -/
theorem C9_witness :
    (run_aco (ACOAlgorithm.init 1) demo_net (fun _ => 0) (fun _ _ => 0) 2).1
      = (run_aco (ACOAlgorithm.init 1) demo_net_clean (fun _ => 0) (fun _ _ => 0) 2).1 :=
  C9_ground_truth_never_read (ACOAlgorithm.init 1) (fun _ => 0) (fun _ _ => 0) 2
    demo_net demo_net_clean rfl rfl rfl rfl rfl

/-! ### C10 -/

/-- C10: every ant's visited trail is adjacency-chained at every point
of a run: each consecutive pair u then v in the trail satisfies v = u
(the ant stayed) or v ∈ neighbors(u) (the ant moved along an edge). -/
theorem C10_trail_adjacency (A : ACOAlgorithm) (net : Network) (sc : ℕ → ℕ)
    (oracle : ℕ → List ℚ → ℕ) (k : ℕ) (a : Ant)
    (ha : a ∈ (run_aco A net sc oracle k).2.ants) :
    List.Chain' (fun u v => v = u ∨ v ∈ net.neighbors u) a.visited_nodes := by
  have hfin : a ∈ (aco_loop net oracle k
      { ants := create_ant_colony net sc A.num_ants
      , ph := A.pheromone_matrix, t := 0 }).ants := ha
  have hP := aco_loop_ants_pred net oracle
    (fun x => List.Chain' (fun u v => v = u ∨ v ∈ net.neighbors u)
      (x.visited_nodes ++ [x.current_node])) ?_ k _ ?_ a hfin
  · exact (List.chain'_append.mp hP).1
  · intro ph u x hx
    rw [ant_movement_visited_eq, List.chain'_append]
    refine ⟨hx, List.chain'_singleton _, ?_⟩
    intro p hp q hq
    rw [Option.mem_def, List.getLast?_concat] at hp
    rw [Option.mem_def, List.head?_cons] at hq
    cases Option.some.inj hp
    cases Option.some.inj hq
    exact ant_movement_current_spec net ph oracle u x
  · intro x hx
    unfold create_ant_colony at hx
    obtain ⟨m, -, rfl⟩ := List.mem_map.mp hx
    exact List.chain'_singleton _

/-- C10 witness: the trail [0, 0] of the demo_net run's ant (it stayed
at node 0 both iterations) is adjacency-chained. -/
theorem C10_witness :
    List.Chain' (fun u v => v = u ∨ v ∈ demo_net.neighbors u)
      (Ant.mk 0 [0, 0] [0, 0]).visited_nodes :=
  C10_trail_adjacency (ACOAlgorithm.init 1) demo_net (fun _ => 0) (fun _ _ => 0) 2
    (Ant.mk 0 [0, 0] [0, 0]) (by with_unfolding_all decide)

end WsnAco
